import Mathlib

/-!
Verification development for the concurrent signal-generation and timed-I/O
resource manager of the `simpletools` library (Simple-Libraries).

The repository ships only the header `simpletools.h` (declarations plus their
doc comments); the C implementations of the functions under scrutiny are not
part of the source tree.  Every behavioral definition below is therefore a
shallow model written from the design specification and from the contracts
stated in the header's own doc comments; each such definition carries a doc
comment beginning `Modelled from the spec:` naming what is missing.

Conventions of the embedding:
* raw times and tick counts are `Nat` (the hardware counter, idealized as
  non-wrapping);
* configuration setters take `Int` arguments so that the `ticks <= 0`
  validation of the spec is expressible;
* I/O lines are indexed by `Nat`; each cog (processing unit) carries its own
  direction register (`dira`, `true` = output) and output register (`outa`);
* an external signal applied to a line is a trace `Nat → Bool` (time to
  level);
* fallible operations return a `Status` alongside the (possibly unchanged)
  state.
-/

namespace SimpleTools

/-- Modelled from the spec: the abstract status codes of §6 (the header's
implementations are absent from the tree; the spec lists these as the
reported conditions). -/
inductive Status where
  | Ok
  | InvalidArgument
  | AlreadyClaimed
  | Conflict
  | ResourceExhausted
  | Timeout
  | UseAfterClose
  | UseAfterStop
deriving DecidableEq, Repr

/-- Modelled from the spec: the Time Base of §3/§4.1, mirroring the header's
global variables `pauseTicks`, `iodt`, `t_timeout`, `t_mark`
(`extern long` declarations; the defining translation unit is absent).
Ratios are stored as `Nat` (the setters validate positivity), times are raw
ticks of the idealized system counter. -/
structure TimeBase where
  pauseTicks : Nat
  iodt : Nat
  t_timeout : Nat
  t_mark : Nat
deriving DecidableEq, Repr

/-- The Propeller system clock frequency assumed by the header's defaults
(80 MHz). -/
def CLKFREQ : Nat := 80000000

/-- Default Time Base: 1 ms pause unit, 1 us timed-I/O unit, 0.25 s timeout
ceiling, mark at 0 (the defaults stated in the header's doc comments). -/
def tb0 : TimeBase :=
  ⟨CLKFREQ / 1000, CLKFREQ / 1000000, CLKFREQ / 4, 0⟩

/-- Modelled from the spec: `set_pause_dt` (implementation absent; header
line 444 declares it).  §4.1: sets a positive tick-duration ratio for the
pause unit; fails with `InvalidArgument` if `ticks ≤ 0`, and per §7 a
configuration error has no side effect. -/
def set_pause_dt (s : TimeBase) (clockticks : Int) : Status × TimeBase :=
  if clockticks ≤ 0 then (Status.InvalidArgument, s)
  else (Status.Ok, { s with pauseTicks := clockticks.toNat })

/-- Modelled from the spec: `set_io_dt` (implementation absent; header line
677 declares it).  §4.1: sets the positive tick-duration ratio for the
timed-I/O unit; fails with `InvalidArgument` if `ticks ≤ 0`, no side effect
on failure. -/
def set_io_dt (s : TimeBase) (clockTicks : Int) : Status × TimeBase :=
  if clockTicks ≤ 0 then (Status.InvalidArgument, s)
  else (Status.Ok, { s with iodt := clockTicks.toNat })

/-- Modelled from the spec: `set_io_timeout` (implementation absent; header
line 665 declares it).  Installs the process-wide timeout ceiling, in raw
clock ticks, consulted by `pulse_in` and `rc_time`. -/
def set_io_timeout (s : TimeBase) (clockTicks : Int) : TimeBase :=
  { s with t_timeout := clockTicks.toNat }

/-- Modelled from the spec: `mark` (implementation absent; header line 411
declares it).  Records the current raw tick counter as the reference point,
overwriting the prior mark. -/
def mark (s : TimeBase) (now : Nat) : TimeBase :=
  { s with t_mark := now }

/-- Modelled from the spec: `timeout` (implementation absent; header line
421 declares it).  True iff elapsed-since-mark is at least `time` expressed
in the timed-I/O unit; does not block. -/
def timeout (s : TimeBase) (now : Nat) (time : Nat) : Bool :=
  time * s.iodt ≤ now - s.t_mark

/-- Modelled from the spec: `wait` (implementation absent; header line 432
declares it).  §4.1: blocks the calling flow of control until
elapsed-since-mark ≥ `time` units, then re-marks to the target time
`t_mark + time` units — not to the actual wake time.  The model takes the
raw counter value `now` at the call and returns the new Time Base together
with the wake instant: the call wakes at the target if it was issued before
the target, and immediately (at `now`) otherwise — a single call never
advances the mark by more than one period. -/
def wait (s : TimeBase) (now : Nat) (time : Nat) : TimeBase × Nat :=
  let target := s.t_mark + time * s.iodt
  ({ s with t_mark := target }, max now target)

/-- Modelled from the spec: the busy-wait loops of the timed-I/O primitives
(implementations absent).  `findEdge sig b t fuel` scans the signal trace
`sig` starting at tick `t` for at most `fuel` ticks and returns the first
instant at which the line reads level `b`, or `none` if the scan budget (the
timeout ceiling) is exhausted first. -/
def findEdge (sig : Nat → Bool) (b : Bool) : Nat → Nat → Option Nat
  | _, 0 => none
  | t, fuel + 1 => if sig t = b then some t else findEdge sig b (t + 1) fuel

/-- Modelled from the spec: `pulse_in` (implementation absent; header line
591 declares it).  §4.4: measures how long a pulse of the given polarity
lasts on the line; a timeout starts at call time `t0` using the configured
ceiling `t_timeout`; if the ceiling elapses before the pulse starts or ends
the call returns the sentinel duration `0` — a reported condition, not a
fatal error.  Returns (duration in timed-I/O units, instant at which the
call returns). -/
def pulse_in (s : TimeBase) (sig : Nat → Bool) (t0 : Nat) (state : Bool) :
    Nat × Nat :=
  match findEdge sig state t0 s.t_timeout with
  | none => (0, t0 + s.t_timeout)
  | some ts =>
    match findEdge sig (!state) ts (t0 + s.t_timeout - ts) with
    | none => (0, t0 + s.t_timeout)
    | some te => ((te - ts) / s.iodt, te)

/-- Modelled from the spec: `rc_time` (implementation absent; header line
625 declares it).  §4.4: after the line is driven to `state` briefly and
released to input, measures the time until the externally driven level
crosses to the opposite sense, under the same timeout discipline as
`pulse_in`. -/
def rc_time (s : TimeBase) (sig : Nat → Bool) (t0 : Nat) (state : Bool) :
    Nat × Nat :=
  match findEdge sig (!state) t0 s.t_timeout with
  | none => (0, t0 + s.t_timeout)
  | some te => ((te - t0) / s.iodt, te)

/-- Modelled from the spec: the transition-counting loop of `count`
(implementation absent).  Counts low-to-high transitions of the trace over
`fuel` consecutive ticks starting at `t`. -/
def countRises (sig : Nat → Bool) : Nat → Nat → Nat
  | _, 0 => 0
  | t, fuel + 1 =>
    (if !sig t && sig (t + 1) then 1 else 0) + countRises sig (t + 1) fuel

/-- Modelled from the spec: `count` (implementation absent; header line 455
declares it).  §4.4: counts low-to-high transitions over a foreground
busy-wait of `duration` timed-I/O units (the shared unit `iodt`). -/
def count (s : TimeBase) (sig : Nat → Bool) (t0 : Nat) (duration : Nat) :
    Nat :=
  countRises sig t0 (duration * s.iodt)

/-- Modelled from the spec: the width, in raw ticks, of the pulse emitted by
`pulse_out` for `time` timed-I/O units — the shared unit `iodt` scales it. -/
def pulse_out_ticks (s : TimeBase) (time : Nat) : Nat :=
  time * s.iodt

-- Values for use with shift_in (header lines 134-137).
def MSBPRE : Nat := 0
def LSBPRE : Nat := 1
def MSBPOST : Nat := 2
def LSBPOST : Nat := 3

-- Values for use with shift_out (header lines 140-141).
def LSBFIRST : Nat := 0
def MSBFIRST : Nat := 1

/-- The low `w` bits of `v`, most significant first. -/
def natBitsMSB (v : Nat) : Nat → List Bool
  | 0 => []
  | w + 1 => v.testBit w :: natBitsMSB v w

/-- Modelled from the spec: the data-line waveform produced by `shift_out`
(implementation absent; header line 703 declares it).  One list element per
clock pulse; `MSBFIRST` puts the most significant of the low `bits` bits of
`value` on the wire first, `LSBFIRST` the least significant first. -/
def shift_out_wire (mode bits value : Nat) : List Bool :=
  if mode = MSBFIRST then natBitsMSB value bits
  else (natBitsMSB value bits).reverse

/-- Assemble a wire bit list into an integer, first list element most
significant. -/
def bitsToNatMSB (w : List Bool) : Nat :=
  w.foldl (fun acc b => 2 * acc + cond b 1 0) 0

/-- Assemble a wire bit list into an integer, first list element least
significant. -/
def bitsToNatLSB (w : List Bool) : Nat :=
  bitsToNatMSB w.reverse

/-- Modelled from the spec: `shift_in` (implementation absent; header line
690 declares it).  §4.4: synchronous receive of `bits` bits from the data
wire; the mode selects the wire bit order (`MSBPRE`/`MSBPOST` sample the
most significant bit first, `LSBPRE`/`LSBPOST` the least significant
first) and the sampling edge, which the wire-list abstraction absorbs.  The
state argument is the process-wide Time Base: per the header's doc comments
for `set_io_timeout` (scoped to `pulse_in`, `rc_time`) and `set_io_dt`
(scoped to `count`, `pulse_in`, `pulse_out`, `rc_time`), the shift
primitives' clocking is fixed and consults neither the ceiling nor the io
unit. -/
def shift_in (_s : TimeBase) (wire : List Bool) (mode bits : Nat) : Nat :=
  if mode = MSBPRE ∨ mode = MSBPOST then bitsToNatMSB (wire.take bits)
  else bitsToNatLSB (wire.take bits)

/-- Number of raw ticks each clock phase of the shift primitives lasts: a
fixed constant of the implementation, not governed by `set_io_dt` (whose
header doc comment scopes the unit to `count`, `pulse_in`, `pulse_out`,
`rc_time`). -/
def SHIFT_PHASE_TICKS : Nat := 1

/-- Modelled from the spec: the timed waveform emitted by `shift_out` —
each transmitted bit paired with the (fixed) tick width of its clock
phase.  Takes the Time Base like every other primitive, but its timing is
the fixed `SHIFT_PHASE_TICKS`. -/
def shift_out_trace (_s : TimeBase) (mode bits value : Nat) :
    List (Bool × Nat) :=
  (shift_out_wire mode bits value).map (fun b => (b, SHIFT_PHASE_TICKS))

/-- Per-line I/O registers of one cog: direction (`true` = output) and the
output-register bit. -/
structure LineRegs where
  dir : Bool
  out : Bool
deriving DecidableEq, Repr

/-- Foreground system state for the timed-I/O primitives: the Time Base,
the calling cog's per-line registers, and the Worker Pool (worker id ↦
busy). -/
structure IoSys where
  tb : TimeBase
  lines : Nat → LineRegs
  busy : Nat → Bool

/-- Modelled from the spec: `pulse_out` (implementation absent; header line
608 declares it).  §4.4 and the header doc comment (lines 596-603): drives
a pulse opposite to the line's current output-register state for `time`
timed-I/O units, then restores the line to its pre-call output register
value; a line that was an input becomes an output and stays one — the only
lasting effect.  Pure foreground blocking: no Worker is involved.  Returns
(state after the call, level driven during the pulse, pulse width in raw
ticks). -/
def pulse_out (s : IoSys) (pin : Nat) (time : Nat) : IoSys × Bool × Nat :=
  (⟨s.tb,
    fun q => if q = pin then ⟨true, (s.lines pin).out⟩ else s.lines q,
    s.busy⟩,
   !(s.lines pin).out,
   pulse_out_ticks s.tb time)

/-- The I/O registers of one cog (processing unit): per-line direction
(`true` = output) and output register bits.  On the modelled hardware each
cog has its own pair of registers; a pin is driven by the wired-OR of the
cogs that hold it as an output. -/
structure CogRegs where
  dira : Nat → Bool
  outa : Nat → Bool

/-- One logical channel of a signal generator: the bound line (or `none`
when unbound) and the live parameter (duty time, frequency, or DAC code,
per family). -/
structure GenChan where
  pin : Option Nat
  param : Nat
deriving DecidableEq, Repr

/-- Modelled from the spec: the state touched by one signal-generator
family (PWM / Duty-DAC / Square-Wave; the implementations of `pwm_set`,
`square_wave`, `dac_ctr`, `pwm_stop`, `square_wave_stop`, `dac_ctrs_stop`
are absent from the tree).  The three families share this shape and differ
only in the family-specific in-range ceiling for the live parameter, which
`paramMax` abstracts (the PWM cycle length, the DAC code bound
`2^resolution - 1`, the frequency cap).  `owner` is the Line Ownership
Registry (line ↦ claiming worker), `busy` the Worker Pool, `genCog` the
generator worker's own I/O registers, `callerCog` the calling cog's. -/
structure GenSys where
  running : Bool
  wid : Nat
  paramMax : Nat
  chans : Fin 2 → GenChan
  genCog : CogRegs
  callerCog : CogRegs
  owner : Nat → Option Nat
  busy : Nat → Bool

/-- Release line `p` from the generator worker: clear its Registry claim
and revert the worker cog's direction register for `p` to input (the
release policy the generators document: the caller's registers are not
touched). -/
def releasePin (s : GenSys) (p : Nat) : GenSys :=
  { s with
    owner := fun q => if q = p then none else s.owner q,
    genCog := { s.genCog with
                dira := fun q => if q = p then false else s.genCog.dira q } }

/-- Claim line `p` for the generator worker: record the claim in the
Registry and set the worker cog's direction register for `p` to output. -/
def claimPin (s : GenSys) (p : Nat) : GenSys :=
  { s with
    owner := fun q => if q = p then some s.wid else s.owner q,
    genCog := { s.genCog with
                dira := fun q => if q = p then true else s.genCog.dira q } }

/-- Point update of the channel table. -/
def updChans (f : Fin 2 → GenChan) (ch : Fin 2) (c : GenChan) :
    Fin 2 → GenChan :=
  fun j => if j = ch then c else f j

/-- Modelled from the spec: `set_channel` — the common contract of
`pwm_set`, `square_wave` and `dac_ctr` (implementations absent; §4.3 and
the header doc comments, lines 545-570 and 627-645, give the contract).
While Running, binds or rebinds `ch` to `pin`, claiming the line via the
Registry and setting the live parameter; when the channel moves off a pin,
the worker cog sets the previous pin to input (only its own registers).  A
negative `pin` unbinds the channel, releasing its previous line and
reverting that line to input.  Validation: `UseAfterStop` when not running,
`InvalidArgument` when the parameter is out of the family range,
`Conflict` when the other channel of the same generator is bound to the
requested line, `AlreadyClaimed` when a different worker owns it; on any
error the state is unchanged. -/
def set_channel (s : GenSys) (ch : Fin 2) (pin : Int) (param : Nat) :
    Status × GenSys :=
  if s.running = false then (Status.UseAfterStop, s)
  else if pin < 0 then
    match (s.chans ch).pin with
    | none => (Status.Ok, { s with chans := updChans s.chans ch ⟨none, param⟩ })
    | some old =>
      (Status.Ok,
       { releasePin s old with chans := updChans s.chans ch ⟨none, param⟩ })
  else if s.paramMax < param then (Status.InvalidArgument, s)
  else if ∀ j : Fin 2, j ≠ ch → (s.chans j).pin ≠ some pin.toNat then
    match s.owner pin.toNat with
    | some w =>
      if w = s.wid then
        let s1 := match (s.chans ch).pin with
                  | some old => if old = pin.toNat then s else releasePin s old
                  | none => s
        (Status.Ok,
         { claimPin s1 pin.toNat with
           chans := updChans s.chans ch ⟨some pin.toNat, param⟩ })
      else (Status.AlreadyClaimed, s)
    | none =>
      let s1 := match (s.chans ch).pin with
                | some old => if old = pin.toNat then s else releasePin s old
                | none => s
      (Status.Ok,
       { claimPin s1 pin.toNat with
         chans := updChans s.chans ch ⟨some pin.toNat, param⟩ })
  else (Status.Conflict, s)

/-- Modelled from the spec: the common contract of `dac_ctrs_stop`,
`pwm_stop` and `square_wave_stop` (implementations absent; §4.3 and the
header doc comments, lines 508-515 and 572-577, give it).  Transitions the
generator to Stopped: releases every claimed line (reverting each to input
direction in the worker cog), unbinds both channels, and frees the Worker;
a stop on an already-stopped generator is a no-op. -/
def gen_stop (s : GenSys) : GenSys :=
  if s.running = false then s
  else
    let s0 := match (s.chans 0).pin with
              | some p => releasePin s p
              | none => s
    let s1 := match (s.chans 1).pin with
              | some p => releasePin s0 p
              | none => s0
    { s1 with
      running := false,
      chans := fun j => { s.chans j with pin := none },
      busy := fun w => if w = s.wid then false else s.busy w }

/-- Apply a whole list of `set_channel` calls in order (each call's
resulting state feeds the next; statuses are the callers' concern). -/
def runSets (s : GenSys) (calls : List (Fin 2 × Int × Nat)) : GenSys :=
  calls.foldl (fun t c => (set_channel t c.1 c.2.1 c.2.2).2) s

/-- The level a pin presents, as the wired-OR of the cogs driving it: a cog
contributes its output-register bit iff its direction register holds the
pin as an output. -/
def pinLevel (s : GenSys) (p : Nat) : Bool :=
  (s.callerCog.dira p && s.callerCog.outa p) ||
  (s.genCog.dira p && s.genCog.outa p)

/-- A half-duplex serial stream handle: the claimed transmit and receive
lines (at least one is present) and the baud rate. -/
structure HDHandle where
  tx : Option Nat
  rx : Option Nat
  baud : Nat
deriving DecidableEq, Repr

/-- Modelled from the spec: the state of the half-duplex serial driver
(the implementations of `sser_setTx`, `sser_setTxRx`, `sser_setRx`,
`sser_close` are absent; §4.5 gives the contract).  `serOwner` is the Line
Ownership Registry view (line ↦ claiming handle id), `handles` the open
stream handles, `nextId` the next handle id to allocate. -/
structure SerSys where
  serOwner : Nat → Option Nat
  handles : Nat → Option HDHandle
  nextId : Nat

/-- Whether the optionally-given line is already claimed in the Registry. -/
def lineBusy (s : SerSys) : Option Nat → Bool
  | some p => (s.serOwner p).isSome
  | none => false

/-- Modelled from the spec: `open_half_duplex` — the common contract of
`sser_setTx` / `sser_setRx` / `sser_setTxRx` (implementations absent; §4.5
gives it).  At least one of tx/rx must be given (`InvalidArgument`
otherwise); each given line must be unclaimed (`AlreadyClaimed`
otherwise); on success both given lines are claimed directly by the new
handle (no Worker — the stream is bit-banged from the caller's flow of
control) and the handle id is returned. -/
def open_half_duplex (s : SerSys) (tx rx : Option Nat) (baud : Nat) :
    Status × SerSys × Nat :=
  if tx = none ∧ rx = none then (Status.InvalidArgument, s, 0)
  else if lineBusy s tx || lineBusy s rx then (Status.AlreadyClaimed, s, 0)
  else
    (Status.Ok,
     ⟨fun p => if tx = some p ∨ rx = some p then some s.nextId else s.serOwner p,
      fun k => if k = s.nextId then some ⟨tx, rx, baud⟩ else s.handles k,
      s.nextId + 1⟩,
     s.nextId)

/-- Modelled from the spec: `sser_close` (implementation absent; header
line 755 declares it; §4.5 gives the contract).  Releases every line the
handle claims and destroys the handle; closing an already-closed handle is
a no-op (idempotent). -/
def sser_close (s : SerSys) (h : Nat) : SerSys :=
  match s.handles h with
  | none => s
  | some _ =>
    ⟨fun p => if s.serOwner p = some h then none else s.serOwner p,
     fun k => if k = h then none else s.handles k,
     s.nextId⟩

/-! ## Concrete states used by the witnesses -/

/-- A constant-low signal trace: a line that never transitions. -/
def sigLow : Nat → Bool := fun _ => false

/-- A concrete foreground I/O system: default Time Base, all lines input
and low, all workers free. -/
def io0 : IoSys :=
  ⟨tb0, fun _ => ⟨false, false⟩, fun _ => false⟩

/-- A concrete generator system: running on worker 1 with both channels
unbound, parameter ceiling 1000 (a 1000 us PWM cycle), all registers
cleared, no line claimed. -/
def g0 : GenSys :=
  { running := true, wid := 1, paramMax := 1000,
    chans := fun _ => ⟨none, 0⟩,
    genCog := ⟨fun _ => false, fun _ => false⟩,
    callerCog := ⟨fun _ => false, fun _ => false⟩,
    owner := fun _ => none,
    busy := fun w => w == 1 }

/-- A concrete generator system matching the spec's end-to-end DAC
scenario: 8-bit resolution (parameter ceiling 255), channel 0 bound to
line 0 with value 128, worker 1 busy, line 0 claimed and driven by the
worker cog. -/
def gRun : GenSys :=
  { running := true, wid := 1, paramMax := 255,
    chans := fun j => if j = 0 then ⟨some 0, 128⟩ else ⟨none, 0⟩,
    genCog := ⟨fun q => q == 0, fun _ => false⟩,
    callerCog := ⟨fun _ => false, fun _ => false⟩,
    owner := fun q => if q = 0 then some 1 else none,
    busy := fun w => w == 1 }

/-- A concrete generator system about to move channel 0 off line 0: the
worker cog drives line 0 high, while the caller pre-set line 0 to
output-low before starting the generator. -/
def gMove : GenSys :=
  { running := true, wid := 1, paramMax := 1000,
    chans := fun j => if j = 0 then ⟨some 0, 500⟩ else ⟨none, 0⟩,
    genCog := ⟨fun q => q == 0, fun q => q == 0⟩,
    callerCog := ⟨fun q => q == 0, fun _ => false⟩,
    owner := fun q => if q = 0 then some 1 else none,
    busy := fun w => w == 1 }

/-- A fresh serial-driver state: no line claimed, no handle open. -/
def ser0 : SerSys :=
  ⟨fun _ => none, fun _ => none, 0⟩

/-- The serial-driver state after opening a transmit-only half-duplex
stream on line 1 at 9600 baud. -/
def serOpened : SerSys :=
  (open_half_duplex ser0 (some 1) none 9600).2.1

/-! ## Theorems -/

/-- Claim C3: for every number of units and every prior mark, `wait`
blocks until elapsed-since-mark reaches the requested units, and then sets
the mark to the target time `mark + time` units — not to the actual wake
time — so that two successive `wait time` calls with negligible intervening
work wake exactly `time` units apart; a single call never advances the mark
by more than one period. -/
theorem wait_remarks_to_target (s : TimeBase) (now time : Nat) :
    (wait s now time).1.t_mark = s.t_mark + time * s.iodt
  ∧ s.t_mark + time * s.iodt ≤ (wait s now time).2
  ∧ (now ≤ s.t_mark + time * s.iodt →
      (wait (wait s now time).1 (wait s now time).2 time).2
        - (wait s now time).2 = time * s.iodt) := by
  refine ⟨rfl, le_max_right _ _, fun h => ?_⟩
  simp only [wait]
  omega

/-- Witness for C3: two successive `wait 10` calls on the default Time
Base, issued in time, wake exactly `10 * iodt` ticks apart. -/
theorem wait_remarks_to_target_witness :
    (wait (wait tb0 5 10).1 (wait tb0 5 10).2 10).2 - (wait tb0 5 10).2
      = 10 * tb0.iodt :=
  (wait_remarks_to_target tb0 5 10).2.2 (by decide)

/-- Claim C6: the Time Base unit setters fail with `InvalidArgument` when
given `ticks ≤ 0`, synchronously and with no side effect (the previously
configured ratio — indeed the whole Time Base — is unchanged), and for
every `ticks > 0` they succeed and install the new ratio. -/
theorem set_unit_validation (s : TimeBase) (t : Int) :
    (t ≤ 0 → set_pause_dt s t = (Status.InvalidArgument, s)
            ∧ set_io_dt s t = (Status.InvalidArgument, s))
  ∧ (0 < t → set_pause_dt s t = (Status.Ok, { s with pauseTicks := t.toNat })
            ∧ set_io_dt s t = (Status.Ok, { s with iodt := t.toNat })) := by
  constructor
  · intro h
    simp only [set_pause_dt, set_io_dt]
    rw [if_pos h, if_pos h]
    exact ⟨rfl, rfl⟩
  · intro h
    have h' : ¬ t ≤ 0 := by omega
    simp only [set_pause_dt, set_io_dt]
    rw [if_neg h', if_neg h']
    exact ⟨rfl, rfl⟩

/-- Witness for C6: on the default Time Base, `-3` ticks is rejected with
no side effect and `7` ticks is installed. -/
theorem set_unit_validation_witness :
    (set_pause_dt tb0 (-3) = (Status.InvalidArgument, tb0)
      ∧ set_io_dt tb0 (-3) = (Status.InvalidArgument, tb0))
  ∧ (set_pause_dt tb0 7 = (Status.Ok, { tb0 with pauseTicks := (7 : Int).toNat })
      ∧ set_io_dt tb0 7 = (Status.Ok, { tb0 with iodt := (7 : Int).toNat })) :=
  ⟨(set_unit_validation tb0 (-3)).1 (by decide),
   (set_unit_validation tb0 7).2 (by decide)⟩

/-- On a trace that constantly reads `c`, a scan for any level other than
`c` exhausts its budget without finding an edge. -/
lemma findEdge_const (sig : Nat → Bool) (c b : Bool) (hsig : ∀ u, sig u = c)
    (hb : b ≠ c) : ∀ t fuel, findEdge sig b t fuel = none := by
  intro t fuel
  induction fuel generalizing t with
  | zero => rfl
  | succ n ih =>
    simp only [findEdge, hsig t]
    rw [if_neg (fun hcb => hb hcb.symm)]
    exact ih (t + 1)

/-- Claim C4: `pulse_in` on a line whose expected transition never occurs
(a constant trace) returns the sentinel duration 0 exactly when the
configured timeout ceiling elapses — it completes at `t0 + t_timeout`,
never blocking past the ceiling, and the timeout is a reported result, not
an error state. -/
theorem pulse_in_timeout_sentinel (s : TimeBase) (sig : Nat → Bool)
    (t0 : Nat) (state : Bool) (hsig : ∀ u, sig u = sig t0) :
    (pulse_in s sig t0 state).1 = 0
  ∧ (pulse_in s sig t0 state).2 = t0 + s.t_timeout := by
  by_cases hst : sig t0 = state
  · have h2 : ∀ t fuel, findEdge sig (!state) t fuel = none :=
      findEdge_const sig (sig t0) (!state) hsig
        (by rw [hst]; exact fun hc => (Bool.not_ne_self state) hc)
    unfold pulse_in
    cases h1 : findEdge sig state t0 s.t_timeout with
    | none => exact ⟨rfl, rfl⟩
    | some ts => simp only [h2]; exact ⟨trivial, trivial⟩
  · have h1 : ∀ t fuel, findEdge sig state t fuel = none :=
      findEdge_const sig (sig t0) state hsig (fun hc => hst hc.symm)
    unfold pulse_in
    rw [h1]
    exact ⟨rfl, rfl⟩

/-- Witness for C4: with the ceiling set to 4 ticks, `pulse_in` on a
constant-low line waiting for a high pulse returns the sentinel 0 at
exactly `t0 + 4`. -/
theorem pulse_in_timeout_sentinel_witness :
    (pulse_in (set_io_timeout tb0 4) sigLow 0 true).1 = 0
  ∧ (pulse_in (set_io_timeout tb0 4) sigLow 0 true).2
      = 0 + (set_io_timeout tb0 4).t_timeout :=
  pulse_in_timeout_sentinel (set_io_timeout tb0 4) sigLow 0 true
    (fun _ => rfl)

/-- Claim C8: `pulse_out` drives a pulse opposite to the line's current
output-register state, lasting the requested number of timed-I/O units;
afterwards the line's output register holds exactly its pre-call value, the
only lasting effect being that the line is now an output; no other line, no
Worker and no Time Base state is touched. -/
theorem pulse_out_restores_output (s : IoSys) (pin time : Nat) :
    ((pulse_out s pin time).1.lines pin).out = (s.lines pin).out
  ∧ ((pulse_out s pin time).1.lines pin).dir = true
  ∧ (pulse_out s pin time).2.1 = !(s.lines pin).out
  ∧ (pulse_out s pin time).2.2 = time * s.tb.iodt
  ∧ (∀ q, q ≠ pin → (pulse_out s pin time).1.lines q = s.lines q)
  ∧ (pulse_out s pin time).1.busy = s.busy
  ∧ (pulse_out s pin time).1.tb = s.tb := by
  refine ⟨?_, ?_, rfl, rfl, fun q hq => ?_, rfl, rfl⟩
  · simp [pulse_out]
  · simp [pulse_out]
  · simp [pulse_out, hq]

/-- Witness for C8: a 5-unit pulse on line 3 of the fresh system restores
line 3's output register and leaves line 4 untouched. -/
theorem pulse_out_restores_output_witness :
    ((pulse_out io0 3 5).1.lines 3).out = (io0.lines 3).out
  ∧ (pulse_out io0 3 5).1.lines 4 = io0.lines 4 :=
  ⟨(pulse_out_restores_output io0 3 5).1,
   (pulse_out_restores_output io0 3 5).2.2.2.2.1 4 (by decide)⟩

/-- `natBitsMSB` produces a list of the requested width. -/
lemma natBitsMSB_length (v : Nat) : ∀ n, (natBitsMSB v n).length = n := by
  intro n
  induction n with
  | zero => rfl
  | succ n ih => simp [natBitsMSB, ih]

/-- Folding the MSB-accumulator over a bit list from an arbitrary seed
splits into the seed shifted past the list and the list's own value. -/
lemma foldl_bits_acc (w : List Bool) (a : Nat) :
    w.foldl (fun acc b => 2 * acc + cond b 1 0) a
      = a * 2 ^ w.length + bitsToNatMSB w := by
  induction w generalizing a with
  | nil => simp [bitsToNatMSB]
  | cons b w ih =>
    simp only [List.foldl_cons, List.length_cons, bitsToNatMSB] at *
    rw [ih, ih (2 * 0 + cond b 1 0), pow_succ]
    ring

/-- Reassembling the MSB-first bit list of `v` recovers `v` modulo the
width. -/
lemma bitsToNatMSB_natBitsMSB (v : Nat) :
    ∀ n, bitsToNatMSB (natBitsMSB v n) = v % 2 ^ n := by
  intro n
  induction n with
  | zero => simp [natBitsMSB, bitsToNatMSB, Nat.mod_one]
  | succ n ih =>
    show bitsToNatMSB (v.testBit n :: natBitsMSB v n) = v % 2 ^ (n + 1)
    unfold bitsToNatMSB
    rw [List.foldl_cons, foldl_bits_acc, natBitsMSB_length]
    have hbit : cond (v.testBit n) 1 0 = v / 2 ^ n % 2 := by
      rw [Nat.testBit_to_div_mod]
      rcases Nat.mod_two_eq_zero_or_one (v / 2 ^ n) with h | h <;> simp [h]
    rw [show bitsToNatMSB (natBitsMSB v n)
          = v % 2 ^ n from ih]
    rw [pow_succ, Nat.mod_mul, Nat.mul_zero, Nat.zero_add, hbit]
    ring

/-- Claim C5: `shift_out` followed by a loop-backed `shift_in` of the same
width in MSB-first mode reproduces the transmitted value — in general, any
value reduced to the transferred bit count, and in particular the 8-bit
value `0xA5 = 165` exactly. -/
theorem shift_roundtrip (s : TimeBase) (bits value : Nat) :
    shift_in s (shift_out_wire MSBFIRST bits value) MSBPRE bits
      = value % 2 ^ bits
  ∧ shift_in tb0 (shift_out_wire MSBFIRST 8 165) MSBPRE 8 = 165 := by
  constructor
  · unfold shift_in shift_out_wire
    rw [if_pos (Or.inl rfl), if_pos rfl]
    rw [List.take_of_length_le (by rw [natBitsMSB_length])]
    exact bitsToNatMSB_natBitsMSB value bits
  · decide

/-- Claim C7 (counterexample): the claim that every timed-I/O primitive —
shift_in and shift_out included — uses the single duration unit installed
by `set_io_dt` and the single timeout ceiling installed by
`set_io_timeout` is false at a concrete input: doubling the unit from 100
to 200 ticks changes `pulse_out`'s pulse width (500 to 1000 raw ticks) but
leaves `shift_out`'s emitted waveform — levels and per-phase tick widths —
bit-for-bit identical, and changing the ceiling from 7 to 9 ticks changes
`pulse_in`'s result while `shift_in` is unaffected: the shift primitives'
clocking is fixed, exactly as the header scopes `set_io_dt` to `count`,
`pulse_in`, `pulse_out`, `rc_time` and `set_io_timeout` to `pulse_in`,
`rc_time`. -/
theorem timedio_shared_config_cex :
    (pulse_out_ticks (set_io_dt tb0 100).2 5
       ≠ pulse_out_ticks (set_io_dt tb0 200).2 5
     ∧ shift_out_trace (set_io_dt tb0 100).2 MSBFIRST 8 165
       = shift_out_trace (set_io_dt tb0 200).2 MSBFIRST 8 165)
  ∧ (pulse_in (set_io_timeout tb0 7) sigLow 0 true
       ≠ pulse_in (set_io_timeout tb0 9) sigLow 0 true
     ∧ shift_in (set_io_timeout tb0 7) (List.replicate 8 false) MSBPRE 8
       = shift_in (set_io_timeout tb0 9) (List.replicate 8 false) MSBPRE 8) := by
  refine ⟨⟨by decide, rfl⟩, ⟨by decide, rfl⟩⟩

/-- Claim C7 (amended): the timed-I/O primitives that the header scopes to
the shared configuration — `pulse_in`, `rc_time`, `count`, `pulse_out` —
consult only the single process-wide duration unit `iodt` and timeout
ceiling `t_timeout`: two Time Bases agreeing on those two fields make every
one of them behave identically (no private timeout or unit), and the
setters install exactly the values those primitives then use. -/
theorem timedio_shared_config (s₁ s₂ : TimeBase)
    (h1 : s₁.iodt = s₂.iodt) (h2 : s₁.t_timeout = s₂.t_timeout) :
    (∀ sig t0 st, pulse_in s₁ sig t0 st = pulse_in s₂ sig t0 st)
  ∧ (∀ sig t0 st, rc_time s₁ sig t0 st = rc_time s₂ sig t0 st)
  ∧ (∀ sig t0 d, count s₁ sig t0 d = count s₂ sig t0 d)
  ∧ (∀ t, pulse_out_ticks s₁ t = pulse_out_ticks s₂ t)
  ∧ (∀ d : Int, 0 < d →
       (set_io_dt s₁ d).1 = Status.Ok ∧ (set_io_dt s₁ d).2.iodt = d.toNat)
  ∧ (∀ T : Int, (set_io_timeout s₁ T).t_timeout = T.toNat) := by
  refine ⟨fun sig t0 st => ?_, fun sig t0 st => ?_, fun sig t0 d => ?_,
          fun t => ?_, fun d hd => ?_, fun T => rfl⟩
  · unfold pulse_in; rw [h1, h2]
  · unfold rc_time; rw [h1, h2]
  · unfold count; rw [h1]
  · unfold pulse_out_ticks; rw [h1]
  · have h' : ¬ d ≤ 0 := by omega
    simp only [set_io_dt]
    rw [if_neg h']
    exact ⟨rfl, rfl⟩

/-- Witness for the amended C7: two Time Bases differing only in the mark
give `pulse_in` identical results, and `set_io_dt 160` installs the unit
160. -/
theorem timedio_shared_config_witness :
    pulse_in { tb0 with t_mark := 1 } sigLow 0 true
      = pulse_in tb0 sigLow 0 true
  ∧ (set_io_dt { tb0 with t_mark := 1 } 160).2.iodt = (160 : Int).toNat :=
  ⟨(timedio_shared_config { tb0 with t_mark := 1 } tb0 rfl rfl).1 sigLow 0 true,
   ((timedio_shared_config { tb0 with t_mark := 1 } tb0 rfl rfl).2.2.2.2.1
      160 (by decide)).2⟩

/-- A stop on an already-stopped generator is a no-op. -/
lemma gen_stop_stopped (s : GenSys) (h : s.running = false) :
    gen_stop s = s := by
  simp [gen_stop, h]

/-- After a stop the generator is stopped. -/
lemma gen_stop_running_false (s : GenSys) : (gen_stop s).running = false := by
  by_cases h : s.running = false
  · rw [gen_stop_stopped s h]; exact h
  · simp [gen_stop, h]

/-- Claim C2: for every generator family, stop releases every line the
generator had claimed, restores each released line to input direction in
the worker cog, and frees the generator's Worker; stopping an
already-stopped generator is a no-op and stop is idempotent. -/
theorem gen_stop_spec (s : GenSys) :
    (s.running = true → ∀ ch : Fin 2, ∀ p : Nat, (s.chans ch).pin = some p →
        (gen_stop s).owner p = none ∧ (gen_stop s).genCog.dira p = false)
  ∧ (s.running = true → (gen_stop s).busy s.wid = false)
  ∧ (s.running = false → gen_stop s = s)
  ∧ gen_stop (gen_stop s) = gen_stop s := by
  refine ⟨?_, ?_, gen_stop_stopped s,
          gen_stop_stopped (gen_stop s) (gen_stop_running_false s)⟩
  · intro h ch p hp
    have h1 : ¬ s.running = false := by simp [h]
    fin_cases ch
    · simp only [Fin.zero_eta] at hp
      simp only [gen_stop, if_neg h1, hp]
      cases h2 : (s.chans 1).pin with
      | none => simp [releasePin]
      | some p1 => simp [releasePin]
    · simp only [Fin.mk_one] at hp
      simp only [gen_stop, if_neg h1, hp]
      cases h2 : (s.chans 0).pin with
      | none => simp [releasePin]
      | some p0 => simp [releasePin]
  · intro h
    have h1 : ¬ s.running = false := by simp [h]
    simp only [gen_stop, if_neg h1]
    simp

/-- Witness for C2: stopping the concrete DAC scenario releases line 0,
reverts it to input in the worker cog, and frees worker 1. -/
theorem gen_stop_spec_witness :
    ((gen_stop gRun).owner 0 = none ∧ (gen_stop gRun).genCog.dira 0 = false)
  ∧ (gen_stop gRun).busy gRun.wid = false :=
  ⟨(gen_stop_spec gRun).1 rfl 0 0 (by decide),
   (gen_stop_spec gRun).2.1 rfl⟩

/-- A valid `set_channel` call binds the channel to exactly the requested
line and installs the requested parameter, whatever the prior binding
was. -/
lemma set_channel_binds (t : GenSys) (ch : Fin 2) (pin : Int) (param : Nat)
    (hrun : t.running = true) (hpin : 0 ≤ pin) (hparam : param ≤ t.paramMax)
    (hconf : ∀ j : Fin 2, j ≠ ch → (t.chans j).pin ≠ some pin.toNat)
    (hown : t.owner pin.toNat = none ∨ t.owner pin.toNat = some t.wid) :
    (set_channel t ch pin param).2.chans ch = ⟨some pin.toNat, param⟩
  ∧ (set_channel t ch pin param).1 = Status.Ok := by
  have h1 : ¬ t.running = false := by simp [hrun]
  have h2 : ¬ pin < 0 := by omega
  have h3 : ¬ t.paramMax < param := by omega
  simp only [set_channel, if_neg h1, if_neg h2, if_neg h3, if_pos hconf]
  rcases hown with hown | hown <;> simp only [hown]
  · exact ⟨by simp [updChans], by trivial⟩
  · simp only [if_true]
    exact ⟨by simp [updChans], by trivial⟩

/-- A `set_channel` call with a negative line unbinds the channel and
releases its previous line, reverting that line to input direction in the
worker cog. -/
lemma set_channel_unbind (t : GenSys) (ch : Fin 2) (pin : Int) (param : Nat)
    (hrun : t.running = true) (hneg : pin < 0) :
    (set_channel t ch pin param).2.chans ch = ⟨none, param⟩
  ∧ (∀ old, (t.chans ch).pin = some old →
      (set_channel t ch pin param).2.owner old = none
    ∧ (set_channel t ch pin param).2.genCog.dira old = false) := by
  have h1 : ¬ t.running = false := by simp [hrun]
  simp only [set_channel, if_neg h1, if_pos hneg]
  cases hold : (t.chans ch).pin with
  | none =>
    refine ⟨by simp [updChans], fun old h => ?_⟩
    exact Option.noConfusion h
  | some o =>
    refine ⟨by simp [updChans], fun old h => ?_⟩
    injection h with h
    subst h
    exact ⟨by simp [releasePin], by simp [releasePin]⟩

/-- Appending one call to a call sequence runs it last. -/
lemma runSets_append_single (s : GenSys) (calls : List (Fin 2 × Int × Nat))
    (c : Fin 2 × Int × Nat) :
    runSets s (calls ++ [c])
      = (set_channel (runSets s calls) c.1 c.2.1 c.2.2).2 := by
  unfold runSets
  rw [List.foldl_append]
  rfl

/-- Claim C1: after any sequence of `set_channel` calls on a running
generator, a final in-range call leaves the channel bound to exactly the
most-recently requested line with the most-recently requested parameter
(last-write-wins, no stale binding); and a final call with a negative
sentinel line unbinds the channel, releases its previous line and reverts
that line to input. -/
theorem set_channel_last_write_wins (s : GenSys)
    (calls : List (Fin 2 × Int × Nat)) (ch : Fin 2) (pin : Int) (param : Nat)
    (hrun : (runSets s calls).running = true) :
    (0 ≤ pin → param ≤ (runSets s calls).paramMax →
     (∀ j : Fin 2, j ≠ ch →
        ((runSets s calls).chans j).pin ≠ some pin.toNat) →
     ((runSets s calls).owner pin.toNat = none
       ∨ (runSets s calls).owner pin.toNat = some (runSets s calls).wid) →
     (runSets s (calls ++ [(ch, pin, param)])).chans ch
       = ⟨some pin.toNat, param⟩)
  ∧ (pin < 0 →
     (runSets s (calls ++ [(ch, pin, param)])).chans ch = ⟨none, param⟩
   ∧ ∀ old, ((runSets s calls).chans ch).pin = some old →
       (runSets s (calls ++ [(ch, pin, param)])).owner old = none
     ∧ (runSets s (calls ++ [(ch, pin, param)])).genCog.dira old = false) := by
  rw [runSets_append_single]
  exact ⟨fun hp hm hc ho =>
           (set_channel_binds _ ch pin param hrun hp hm hc ho).1,
         fun hneg => set_channel_unbind _ ch pin param hrun hneg⟩

/-- Witness for C1: on the concrete running generator, three successive
requests leave channel 0 on the last line (2, duty 750); and after binding
line 3, a negative request unbinds channel 0 and releases line 3 back to
input. -/
theorem set_channel_last_write_wins_witness :
    (runSets g0 ([((0 : Fin 2), (3 : Int), 10), (0, 5, 20)] ++ [(0, 2, 750)])).chans 0
      = ⟨some 2, 750⟩
  ∧ ((runSets g0 ([((0 : Fin 2), (3 : Int), 10)] ++ [(0, -1, 0)])).chans 0
       = ⟨none, 0⟩
   ∧ (runSets g0 ([((0 : Fin 2), (3 : Int), 10)] ++ [(0, -1, 0)])).owner 3 = none
   ∧ (runSets g0 ([((0 : Fin 2), (3 : Int), 10)] ++ [(0, -1, 0)])).genCog.dira 3
       = false) :=
  ⟨(set_channel_last_write_wins g0 [(0, 3, 10), (0, 5, 20)] 0 2 750
      (by decide)).1 (by decide) (by decide) (by decide) (by decide),
   ((set_channel_last_write_wins g0 [(0, 3, 10)] 0 (-1) 0 (by decide)).2
      (by decide)).1,
   ((set_channel_last_write_wins g0 [(0, 3, 10)] 0 (-1) 0 (by decide)).2
      (by decide)).2 3 (by decide)⟩

/-- Claim C10: when a running generator's channel is moved off a line,
only the generator worker's own direction register for the old line is
reset to input — the calling cog's direction and output registers are
never touched by `set_channel` — so an output level the caller pre-set
takes effect (the wired-OR pin level equals the caller's output bit) the
moment the generator lets go. -/
theorem set_channel_frame_caller (s : GenSys) (ch : Fin 2) (pin : Int)
    (param : Nat) :
    (set_channel s ch pin param).2.callerCog = s.callerCog
  ∧ (∀ old, s.running = true → (s.chans ch).pin = some old → 0 ≤ pin →
      pin.toNat ≠ old → param ≤ s.paramMax →
      (∀ j : Fin 2, j ≠ ch → (s.chans j).pin ≠ some pin.toNat) →
      (s.owner pin.toNat = none ∨ s.owner pin.toNat = some s.wid) →
      (set_channel s ch pin param).2.genCog.dira old = false
    ∧ (s.callerCog.dira old = true →
        pinLevel (set_channel s ch pin param).2 old = s.callerCog.outa old)) := by
  constructor
  · simp only [set_channel]
    repeat' split
    all_goals rfl
  · intro old hrun hold hpin hne hparam hconf hown
    have h1 : ¬ s.running = false := by simp [hrun]
    have h2 : ¬ pin < 0 := by omega
    have h3 : ¬ s.paramMax < param := by omega
    have hne' : ¬ old = pin.toNat := fun hh => hne hh.symm
    simp only [set_channel, if_neg h1, if_neg h2, if_neg h3, if_pos hconf,
               hold]
    rcases hown with hown | hown <;> simp only [hown]
    · refine ⟨?_, fun hdira => ?_⟩
      · simp [claimPin, releasePin, hne', if_neg hne']
      · simp [pinLevel, claimPin, releasePin, hne', hdira]
    · simp only [if_true]
      refine ⟨?_, fun hdira => ?_⟩
      · simp [claimPin, releasePin, hne', if_neg hne']
      · simp [pinLevel, claimPin, releasePin, hne', hdira]

/-- Witness for C10: moving channel 0 of the concrete generator from line
0 to line 2 leaves the caller's registers untouched, reverts the worker
cog's line 0 to input, and the caller's pre-set low level now shows on
line 0. -/
theorem set_channel_frame_caller_witness :
    (set_channel gMove 0 2 500).2.callerCog = gMove.callerCog
  ∧ (set_channel gMove 0 2 500).2.genCog.dira 0 = false
  ∧ pinLevel (set_channel gMove 0 2 500).2 0 = gMove.callerCog.outa 0 :=
  ⟨(set_channel_frame_caller gMove 0 2 500).1,
   ((set_channel_frame_caller gMove 0 2 500).2 0 rfl (by decide) (by decide)
      (by decide) (by decide) (by decide) (by decide)).1,
   ((set_channel_frame_caller gMove 0 2 500).2 0 rfl (by decide) (by decide)
      (by decide) (by decide) (by decide) (by decide)).2 (by decide)⟩

/-- Claim C9: closing a half-duplex serial stream releases every line it
claimed — after an open on a transmit line and a close, a second open on
the same line succeeds (no leaked claim) — and close is idempotent. -/
theorem sser_close_releases (s : SerSys) (p baud baud' : Nat) :
    ((open_half_duplex s (some p) none baud).1 = Status.Ok →
      (open_half_duplex
        (sser_close (open_half_duplex s (some p) none baud).2.1
                    (open_half_duplex s (some p) none baud).2.2)
        (some p) none baud').1 = Status.Ok)
  ∧ (∀ h, sser_close (sser_close s h) h = sser_close s h)
  ∧ (∀ h q, (s.handles h).isSome = true → s.serOwner q = some h →
      (sser_close s h).serOwner q = none) := by
  refine ⟨fun hok => ?_, fun h => ?_, fun h q hs hq => ?_⟩
  · have hc1 : ¬ ((some p : Option Nat) = none ∧ (none : Option Nat) = none) := by
      simp
    by_cases hb : (lineBusy s (some p) || lineBusy s none) = true
    · exfalso
      simp only [open_half_duplex, if_neg hc1, if_pos hb] at hok
      exact Status.noConfusion hok
    · simp only [open_half_duplex, if_neg hc1, if_neg hb]
      simp [sser_close, lineBusy, open_half_duplex]
  · cases hh : s.handles h with
    | none => simp [sser_close, hh]
    | some hd => simp [sser_close, hh]
  · cases hh : s.handles h with
    | none => rw [hh] at hs; cases hs
    | some hd => simp [sser_close, hh, hq]

/-- Witness for C9: open transmit line 1, close, and a second open on line
1 succeeds; closing a handle on the opened state releases line 1. -/
theorem sser_close_releases_witness :
    (open_half_duplex
      (sser_close (open_half_duplex ser0 (some 1) none 9600).2.1
                  (open_half_duplex ser0 (some 1) none 9600).2.2)
      (some 1) none 9600).1 = Status.Ok
  ∧ (sser_close serOpened 0).serOwner 1 = none :=
  ⟨(sser_close_releases ser0 1 9600 9600).1 (by decide),
   (sser_close_releases serOpened 1 9600 9600).2.2 0 1 (by decide) (by decide)⟩

end SimpleTools
